import Mathlib

/-!
Shallow embedding of tipg/database.py: the connection-initialization
protocol (`connection_factory.__call__`) and the pool-lifecycle functions
(`connect_to_db`, `close_db_connection`), with theorems checking the
specification's claims about them.
-/

/-- Configuration value built by `connection_factory.__init__`:
the extra schemas to expose and the user-supplied SQL file paths. -/
structure connection_factory where
  schemas : List String
  user_sql_files : List String
deriving DecidableEq

/-- `connection_factory.__init__`, where Python maps a missing (None)
argument to the empty list via `schemas or []` / `user_sql_files or []`. -/
def connection_factory.ofOptions (schemas : Option (List String))
    (user_sql_files : Option (List String)) : connection_factory :=
  ⟨schemas.getD [], user_sql_files.getD []⟩

/-- Environment supplying the text of files read at initialization time:
`sqlfile.read_text()` for user files and `DB_CATALOG_FILE.read_text()`
for the bundled catalog resource. -/
structure Env where
  readFile : String → String
  dbCatalog : String

/-- One database operation issued on a connection during initialization:
either `conn.set_type_codec(typ, encoder=..., decoder=..., schema=...)`
or `conn.execute(sql)`. -/
inductive DbOp where
  | setTypeCodec (typ encoder decoder schema : String)
  | execute (sql : String)
deriving DecidableEq

/-- Whether an operation is a type-codec registration. -/
def DbOp.isCodecReg : DbOp → Bool
  | .setTypeCodec _ _ _ _ => true
  | .execute _ => false

/-- Python `",".join(l)`. -/
def commaJoin : List String → String
  | [] => ""
  | [s] => s
  | s :: t :: rest => s ++ "," ++ commaJoin (t :: rest)

/-- The `schemas` local of `connection_factory.__call__`:
`",".join(["pg_temp", *self.schemas])`. -/
def searchPathSchemas (cf : connection_factory) : String :=
  commaJoin ("pg_temp" :: cf.schemas)

/-- The SQL text of the search-path statement executed by
`connection_factory.__call__` (the f-string with `schemas` interpolated). -/
def searchPathStatement (cf : connection_factory) : String :=
  "\n            SELECT set_config(\n                \x27search_path\x27,\n                \x27"
    ++ searchPathSchemas cf
    ++ ",\x27 || current_setting(\x27search_path\x27, false),\n                false\n                );\n            "

/-- The ordered list of operations `connection_factory.__call__` issues on a
connection: codec registration for json and jsonb, the search-path
statement, each user SQL file's text in order, then the bundled catalog
SQL text. -/
def initOps (cf : connection_factory) (env : Env) : List DbOp :=
  [DbOp.setTypeCodec ("json") ("orjson.dumps") ("orjson.loads") ("pg_catalog"),
   DbOp.setTypeCodec ("jsonb") ("orjson.dumps") ("orjson.loads") ("pg_catalog"),
   DbOp.execute (searchPathStatement cf)]
  ++ cf.user_sql_files.map (fun f => DbOp.execute (env.readFile f))
  ++ [DbOp.execute env.dbCatalog]

/-- The operations of `initOps` that precede the final catalog-SQL
execution: the two codec registrations, the search-path statement, and the
user SQL files in order. -/
def initPreOps (cf : connection_factory) (env : Env) : List DbOp :=
  [DbOp.setTypeCodec ("json") ("orjson.dumps") ("orjson.loads") ("pg_catalog"),
   DbOp.setTypeCodec ("jsonb") ("orjson.dumps") ("orjson.loads") ("pg_catalog"),
   DbOp.execute (searchPathStatement cf)]
  ++ cf.user_sql_files.map (fun f => DbOp.execute (env.readFile f))

/-- Sequential await-style execution of a list of operations: `ok` says
whether an operation succeeds on this connection; execution stops at the
first failing operation (the raised exception). Returns the successfully
executed operations in order, and the failing operation if any. -/
def runOps (ok : DbOp → Bool) : List DbOp → List DbOp × Option DbOp
  | [] => ([], none)
  | op :: rest =>
    if ok op then
      ((op :: (runOps ok rest).1), (runOps ok rest).2)
    else ([], some op)

/-- Modelled from the spec: the server-side value assigned by the executed
`set_config` call — the interpolated literal prefixed (via `||`) to the
connection's current `search_path` setting. -/
def setConfigValue (cf : connection_factory) (serverPath : String) : String :=
  searchPathSchemas cf ++ "," ++ serverPath

/-- Modelled from the spec: how the server's search path string decomposes
into schema-name elements — split on commas (name quoting is not used by
the code and not modelled). -/
def commaSplitList : List Char → List (List Char)
  | [] => [[]]
  | c :: cs =>
    if c = ',' then [] :: commaSplitList cs
    else
      match commaSplitList cs with
      | [] => [[c]]
      | p :: ps => (c :: p) :: ps

/-- Element list of a search-path string: split on commas. -/
def commaSplit (s : String) : List String :=
  (commaSplitList s.data).map String.mk

/-- Pool sizing/behaviour settings consumed by `connect_to_db`
(from tipg.settings.PostgresSettings). -/
structure PostgresSettings where
  database_url : String
  db_min_conn_size : Nat
  db_max_conn_size : Nat
  db_max_queries : Nat
  db_max_inactive_conn_lifetime : Nat
deriving DecidableEq

/-- Modelled from the spec: the default `PostgresSettings()` constructed when
`connect_to_db` is called with `settings=None`; the field defaults live in
tipg.settings, which is outside the provided sources. -/
def defaultPostgresSettings : PostgresSettings :=
  ⟨"postgresql://localhost:5432/postgres", 1, 10, 50000, 300⟩

/-- Multi-database settings: the list of secondary database URLs
(from tipg.settings.MultiPostgresSettings). -/
structure MultiPostgresSettings where
  database_url_list : List String
deriving DecidableEq

/-- A pool handle as produced by `asyncpg.create_pool_b`, recording the
creation parameters the code passes. -/
structure Pool where
  url : String
  min_size : Nat
  max_size : Nat
  max_queries : Nat
  max_inactive_connection_lifetime : Nat
  init : connection_factory
deriving DecidableEq

/-- The pool `asyncpg.create_pool_b` builds for a URL from the given
settings and per-connection initializer. -/
def mkPool (url : String) (s : PostgresSettings) (ci : connection_factory) : Pool :=
  ⟨url, s.db_min_conn_size, s.db_max_conn_size, s.db_max_queries,
   s.db_max_inactive_conn_lifetime, ci⟩

/-- `asyncpg.create_pool_b`: succeeds (per the oracle `ok` on the URL)
with a pool built from the passed parameters, or fails. -/
def create_pool_b (ok : String → Bool) (url : String) (s : PostgresSettings)
    (ci : connection_factory) : Option Pool :=
  if ok url then some (mkPool url s ci) else none

/-- Process-wide service state: `app.state.pool` and `app.state.pool_list`
(`none` = attribute never assigned). -/
structure AppState where
  pool : Option Pool
  pool_list : Option (List Pool)
deriving DecidableEq

/-- The world `connect_to_db` / `close_db_connection` act on: the
application state plus the pools on which `.close()` has been awaited. -/
structure World where
  state : AppState
  closedPools : List Pool
deriving DecidableEq

/-- The sequential secondary-pool loop of `connect_to_db`: one
`create_pool_b` per URL in order, stopping at the first failure. -/
def createPools (ok : String → Bool) (urls : List String)
    (s : PostgresSettings) (ci : connection_factory) : Option (List Pool) :=
  match urls with
  | [] => some []
  | u :: rest =>
    match create_pool_b ok u s ci with
    | none => none
    | some p => (createPools ok rest s ci).map (fun ps => p :: ps)

/-- `connect_to_db`: builds the primary pool and assigns `app.state.pool`;
then, if multi-database settings supply a non-empty URL list, builds one
pool per secondary URL sequentially and assigns `app.state.pool_list` only
after the whole list succeeded. The Bool is `true` iff no exception was
raised; on failure the returned world is the state at the raise point. -/
def connect_to_db (ok : String → Bool) (w : World)
    (settings : Option PostgresSettings)
    (multi_postgres_settings : Option MultiPostgresSettings)
    (schemas : Option (List String))
    (user_sql_files : Option (List String)) : World × Bool :=
  let s := settings.getD defaultPostgresSettings
  let con_init := connection_factory.ofOptions schemas user_sql_files
  match create_pool_b ok s.database_url s con_init with
  | none => (w, false)
  | some p =>
    match multi_postgres_settings with
    | none => (⟨⟨some p, w.state.pool_list⟩, w.closedPools⟩, true)
    | some m =>
      if 0 < m.database_url_list.length then
        match createPools ok m.database_url_list s con_init with
        | none => (⟨⟨some p, w.state.pool_list⟩, w.closedPools⟩, false)
        | some ps => (⟨⟨some p, some ps⟩, w.closedPools⟩, true)
      else (⟨⟨some p, w.state.pool_list⟩, w.closedPools⟩, true)

/-- `close_db_connection`: awaits `app.state.pool.close()`; fails
(AttributeError) when no pool was ever assigned. -/
def close_db_connection (w : World) : Option World :=
  match w.state.pool with
  | none => none
  | some p => some ⟨w.state, w.closedPools ++ [p]⟩

/-! ### Helper lemmas -/

theorem runOps_none_eq (ok : DbOp → Bool) (l : List DbOp)
    (h : (runOps ok l).2 = none) : (runOps ok l).1 = l := by
  induction l with
  | nil => rfl
  | cons op rest ih =>
    by_cases hok : ok op
    · simp only [runOps, if_pos hok] at h ⊢
      exact congrArg (op :: ·) (ih h)
    · simp [runOps, if_neg hok] at h

theorem runOps_full_none (ok : DbOp → Bool) (l : List DbOp)
    (h : (runOps ok l).1 = l) : (runOps ok l).2 = none := by
  induction l with
  | nil => rfl
  | cons op rest ih =>
    by_cases hok : ok op
    · simp only [runOps, if_pos hok] at h ⊢
      simp only [List.cons.injEq, true_and] at h
      exact ih h
    · simp [runOps, if_neg hok] at h

theorem runOps_all_ok (ok : DbOp → Bool) (l : List DbOp) :
    ∀ op ∈ (runOps ok l).1, ok op = true := by
  induction l with
  | nil => intro op h; simp [runOps] at h
  | cons a rest ih =>
    intro op h
    by_cases hok : ok a
    · simp only [runOps, if_pos hok] at h
      rcases List.mem_cons.mp h with h1 | h2
      · exact h1 ▸ hok
      · exact ih op h2
    · simp [runOps, if_neg hok] at h

theorem runOps_isPrefix (ok : DbOp → Bool) (l : List DbOp) :
    (runOps ok l).1 <+: l := by
  induction l with
  | nil => exact List.prefix_refl _
  | cons a rest ih =>
    by_cases hok : ok a
    · simp only [runOps, if_pos hok]
      exact List.cons_prefix_cons.mpr ⟨rfl, ih⟩
    · simp only [runOps, if_neg hok]
      exact List.nil_prefix

theorem runOps_err (ok : DbOp → Bool) (l : List DbOp) (e : DbOp)
    (h : (runOps ok l).2 = some e) : ok e = false ∧ e ∈ l := by
  induction l with
  | nil => simp [runOps] at h
  | cons a rest ih =>
    by_cases hok : ok a
    · simp only [runOps, if_pos hok] at h
      exact ⟨(ih h).1, List.mem_cons_of_mem _ (ih h).2⟩
    · simp only [runOps, if_neg hok, Option.some.injEq] at h
      subst h
      exact ⟨Bool.eq_false_iff.mpr hok, List.mem_cons_self _ _⟩

theorem runOps_fail_of_mem (ok : DbOp → Bool) (l : List DbOp) (op : DbOp)
    (hm : op ∈ l) (hf : ok op = false) : (runOps ok l).2 ≠ none := by
  induction l with
  | nil => simp at hm
  | cons a rest ih =>
    by_cases hok : ok a
    · simp only [runOps, if_pos hok]
      rcases List.mem_cons.mp hm with h1 | h2
      · subst h1; rw [hok] at hf; cases hf
      · exact ih h2
    · simp [runOps, if_neg hok]

theorem commaSplitList_comma (l2 : List Char) :
    ∀ (l1 : List Char), ',' ∉ l1 →
      commaSplitList (l1 ++ ',' :: l2) = l1 :: commaSplitList l2 := by
  intro l1
  induction l1 with
  | nil => intro _; simp [commaSplitList]
  | cons c cs ih =>
    intro h
    have hc : ¬ (c = ',') := fun hc => h (hc ▸ List.mem_cons_self _ _)
    have hcs : ',' ∉ cs := fun hm => h (List.mem_cons_of_mem _ hm)
    rw [List.cons_append]
    simp only [commaSplitList, if_neg hc]
    rw [ih hcs]

theorem commaJoin_data_split (tail : List Char) :
    ∀ (l : List String), l ≠ [] → (∀ s ∈ l, ',' ∉ s.data) →
      commaSplitList ((commaJoin l).data ++ ',' :: tail) =
        l.map String.data ++ commaSplitList tail := by
  intro l
  induction l with
  | nil => intro h; cases h rfl
  | cons s rest ih =>
    intro _ hall
    cases rest with
    | nil =>
      simp only [commaJoin, List.map]
      rw [commaSplitList_comma tail s.data (hall s (List.mem_cons_self _ _))]
      rfl
    | cons t rest2 =>
      have hj : (commaJoin (s :: t :: rest2)).data
          = s.data ++ ',' :: (commaJoin (t :: rest2)).data := by
        show (s ++ "," ++ commaJoin (t :: rest2)).data = _
        rw [String.data_append, String.data_append]
        simp
      rw [hj, List.append_assoc, List.cons_append]
      rw [commaSplitList_comma _ s.data (hall s (List.mem_cons_self _ _))]
      rw [ih (by simp) (fun x hx => hall x (List.mem_cons_of_mem _ hx))]
      rfl

theorem string_mk_data (s : String) : String.mk s.data = s := rfl

theorem createPools_map (ok : String → Bool) (s : PostgresSettings)
    (ci : connection_factory) :
    ∀ (urls : List String), (∀ u ∈ urls, ok u = true) →
      createPools ok urls s ci = some (urls.map (fun u => mkPool u s ci)) := by
  intro urls
  induction urls with
  | nil => intro _; rfl
  | cons u rest ih =>
    intro h
    have hu : ok u = true := h u (List.mem_cons_self _ _)
    simp only [createPools, create_pool_b, if_pos hu]
    rw [ih (fun x hx => h x (List.mem_cons_of_mem _ hx))]
    rfl

theorem createPools_none (ok : String → Bool) (s : PostgresSettings)
    (ci : connection_factory) :
    ∀ (urls : List String), (∃ u ∈ urls, ok u = false) →
      createPools ok urls s ci = none := by
  intro urls
  induction urls with
  | nil => intro h; simp at h
  | cons u rest ih =>
    intro h
    by_cases hu : ok u
    · simp only [createPools, create_pool_b, if_pos hu]
      rcases h with ⟨x, hx, hfx⟩
      rcases List.mem_cons.mp hx with h1 | h2
      · subst h1; rw [hu] at hfx; cases hfx
      · rw [ih ⟨x, h2, hfx⟩]
        rfl
    · simp only [createPools, create_pool_b, if_neg hu]

theorem initOps_eq_pre_append (cf : connection_factory) (env : Env) :
    initOps cf env = initPreOps cf env ++ [DbOp.execute env.dbCatalog] := by
  simp [initOps, initPreOps]

theorem catalog_not_mem_pre (cf : connection_factory) (env : Env)
    (h1 : env.dbCatalog ≠ searchPathStatement cf)
    (h2 : ∀ f ∈ cf.user_sql_files, env.readFile f ≠ env.dbCatalog) :
    DbOp.execute env.dbCatalog ∉ initPreOps cf env := by
  intro hmem
  simp only [initPreOps, List.mem_append, List.mem_cons, List.mem_map,
    List.not_mem_nil, or_false] at hmem
  rcases hmem with (hc | hc | hc) | ⟨f, hf, heq⟩
  · cases hc
  · cases hc
  · exact h1 (by injection hc)
  · exact h2 f hf (by injection heq)

theorem prefix_concat_eq {α : Type} {t pre : List α} {x : α}
    (hp : t <+: pre ++ [x]) (hx : x ∈ t) (hnx : x ∉ pre) :
    t = pre ++ [x] := by
  have hteq := List.prefix_iff_eq_take.mp hp
  have hlen := hp.length_le
  rw [List.length_append, List.length_singleton] at hlen
  rcases Nat.lt_or_ge t.length (pre.length + 1) with hlt | hge
  · have hle : t.length ≤ pre.length := by omega
    rw [List.take_append_eq_append_take, Nat.sub_eq_zero_of_le hle,
      List.take_zero, List.append_nil] at hteq
    exact absurd (List.take_subset _ _ (hteq ▸ hx)) hnx
  · have hl : t.length = pre.length + 1 := by omega
    have hl2 : (pre ++ [x]).length = pre.length + 1 := by simp
    rw [hteq, hl, ← hl2, List.take_length]

/-! ### Claim theorems -/

/-- Claim C2: for every configuration of connection_factory (any schemas
list, any user_sql_files list, including empty), a successful
initialize(connection) executes the bundled catalog-registration SQL
exactly once, and it is the last SQL resource executed, strictly after
every user-supplied SQL resource. (Exactly-once and last: the executed
trace is `initPreOps ++ [catalog]`, the catalog op does not occur in the
preceding part when its text differs from the other executed texts, and
every user SQL op lies in the preceding part.) -/
theorem c2_catalog_last_once (cf : connection_factory) (env : Env)
    (ok : DbOp → Bool) (h : (runOps ok (initOps cf env)).2 = none) :
    (runOps ok (initOps cf env)).1
        = initPreOps cf env ++ [DbOp.execute env.dbCatalog] ∧
    (env.dbCatalog ≠ searchPathStatement cf →
      (∀ f ∈ cf.user_sql_files, env.readFile f ≠ env.dbCatalog) →
      DbOp.execute env.dbCatalog ∉ initPreOps cf env) ∧
    (∀ f ∈ cf.user_sql_files,
      DbOp.execute (env.readFile f) ∈ initPreOps cf env) := by
  refine ⟨?_, fun h1 h2 => catalog_not_mem_pre cf env h1 h2, ?_⟩
  · rw [runOps_none_eq _ _ h, initOps_eq_pre_append]
  · intro f hf
    exact List.mem_append_right _ (List.mem_map_of_mem _ hf)

/-- Witness for C2 at a concrete configuration: one schema, one user SQL
file whose text differs from the catalog text, every operation succeeding. -/
theorem c2_witness :
    (runOps (fun _ => true)
        (initOps (⟨["s1"], ["f1"]⟩ : connection_factory)
          (⟨fun _ => "USERSQL", "CATALOG"⟩ : Env))).1
      = initPreOps (⟨["s1"], ["f1"]⟩ : connection_factory)
          (⟨fun _ => "USERSQL", "CATALOG"⟩ : Env)
        ++ [DbOp.execute ("CATALOG")] ∧
    DbOp.execute ("CATALOG") ∉
      initPreOps (⟨["s1"], ["f1"]⟩ : connection_factory)
        (⟨fun _ => "USERSQL", "CATALOG"⟩ : Env) := by
  have h := c2_catalog_last_once (⟨["s1"], ["f1"]⟩ : connection_factory)
    (⟨fun _ => "USERSQL", "CATALOG"⟩ : Env) (fun _ => true) (by decide)
  exact ⟨h.1, h.2.1 (by decide) (by decide)⟩

/-- Claim C4: every initialization step that fails aborts
initialize(connection) without executing any later step (the executed
trace is a prefix of the planned operations, every executed operation
succeeded, and the reported error is a failing planned operation); in
particular, when some user SQL resource fails, initialization reports a
failure and the catalog-registration SQL is never executed on that
connection. -/
theorem c4_abort_on_failure (cf : connection_factory) (env : Env)
    (ok : DbOp → Bool) :
    ((runOps ok (initOps cf env)).1 <+: initOps cf env) ∧
    (∀ op ∈ (runOps ok (initOps cf env)).1, ok op = true) ∧
    (∀ e, (runOps ok (initOps cf env)).2 = some e →
      ok e = false ∧ e ∈ initOps cf env) ∧
    ((∃ f ∈ cf.user_sql_files, ok (DbOp.execute (env.readFile f)) = false) →
      env.dbCatalog ≠ searchPathStatement cf →
      (∀ f ∈ cf.user_sql_files, env.readFile f ≠ env.dbCatalog) →
      (runOps ok (initOps cf env)).2 ≠ none ∧
      DbOp.execute env.dbCatalog ∉ (runOps ok (initOps cf env)).1) := by
  refine ⟨runOps_isPrefix _ _, runOps_all_ok _ _,
    fun e he => runOps_err _ _ _ he, ?_⟩
  rintro ⟨f, hf, hfail⟩ h1 h2
  have hmem : DbOp.execute (env.readFile f) ∈ initOps cf env := by
    rw [initOps_eq_pre_append]
    exact List.mem_append_left _
      (List.mem_append_right _ (List.mem_map_of_mem _ hf))
  have hne := runOps_fail_of_mem ok (initOps cf env) _ hmem hfail
  refine ⟨hne, ?_⟩
  intro hcat
  have hpre : (runOps ok (initOps cf env)).1
      <+: initPreOps cf env ++ [DbOp.execute env.dbCatalog] := by
    rw [← initOps_eq_pre_append]
    exact runOps_isPrefix ok (initOps cf env)
  have ht := prefix_concat_eq hpre hcat (catalog_not_mem_pre cf env h1 h2)
  rw [← initOps_eq_pre_append] at ht
  exact hne (runOps_full_none _ _ ht)

/-- Witness for C4 at a concrete configuration: the single user SQL file
fails, the failure is reported and the catalog SQL is not executed. -/
theorem c4_witness :
    (runOps (fun op => !(op == DbOp.execute ("USERSQL")))
        (initOps (⟨[], ["f1"]⟩ : connection_factory)
          (⟨fun _ => "USERSQL", "CATALOG"⟩ : Env))).2 ≠ none ∧
    DbOp.execute ("CATALOG") ∉
      (runOps (fun op => !(op == DbOp.execute ("USERSQL")))
        (initOps (⟨[], ["f1"]⟩ : connection_factory)
          (⟨fun _ => "USERSQL", "CATALOG"⟩ : Env))).1 :=
  (c4_abort_on_failure (⟨[], ["f1"]⟩ : connection_factory)
      (⟨fun _ => "USERSQL", "CATALOG"⟩ : Env)
      (fun op => !(op == DbOp.execute ("USERSQL")))).2.2.2
    ⟨"f1", by decide, by decide⟩ (by decide) (by decide)

/-- Claim C5: initialize registers codecs for exactly the two JSON-family
wire types (json and jsonb), binding both to the same encode/decode pair
(orjson.dumps / orjson.loads in schema pg_catalog), and these two
registrations are the first two operations — every later operation is a
plain SQL execution, so the search path is set and all SQL resources run
only afterwards. -/
theorem c5_codec_registration (cf : connection_factory) (env : Env) :
    (initOps cf env).take 2 =
      [DbOp.setTypeCodec ("json") ("orjson.dumps") ("orjson.loads") ("pg_catalog"),
       DbOp.setTypeCodec ("jsonb") ("orjson.dumps") ("orjson.loads") ("pg_catalog")] ∧
    ((initOps cf env).drop 2).all (fun op => !op.isCodecReg) = true := by
  constructor
  · rfl
  · simp only [initOps, List.cons_append, List.nil_append, List.drop_succ_cons,
      List.drop_zero, List.all_cons, List.all_append, DbOp.isCodecReg,
      Bool.not_false, Bool.true_and, Bool.and_eq_true]
    refine ⟨List.all_eq_true.mpr ?_, by rfl⟩
    intro op hop
    rcases List.mem_map.mp hop with ⟨f, hf, h⟩
    rw [← h]
    rfl

/-- Claim C8: initialization is deterministic in the shared configuration —
two physical connections (two success oracles) initialized from the same
connection_factory and file contents, both successfully, execute exactly
the same operation trace, hence end in identical session states. -/
theorem c8_deterministic (cf : connection_factory) (env : Env)
    (ok1 ok2 : DbOp → Bool)
    (h1 : (runOps ok1 (initOps cf env)).2 = none)
    (h2 : (runOps ok2 (initOps cf env)).2 = none) :
    (runOps ok1 (initOps cf env)).1 = (runOps ok2 (initOps cf env)).1 := by
  rw [runOps_none_eq _ _ h1, runOps_none_eq _ _ h2]

/-- Witness for C8 at a concrete configuration and two distinct success
oracles that both succeed on every planned operation. -/
theorem c8_witness :
    (runOps (fun _ => true)
        (initOps (⟨["s1"], []⟩ : connection_factory)
          (⟨fun _ => "X", "CAT"⟩ : Env))).1
      = (runOps (fun op => !(op == DbOp.execute ("NOPE")))
        (initOps (⟨["s1"], []⟩ : connection_factory)
          (⟨fun _ => "X", "CAT"⟩ : Env))).1 :=
  c8_deterministic (⟨["s1"], []⟩ : connection_factory)
    (⟨fun _ => "X", "CAT"⟩ : Env) (fun _ => true)
    (fun op => !(op == DbOp.execute ("NOPE"))) (by decide) (by decide)

/-- Counterexample for C3 as stated: for the schemas list containing the
single name a,b (which holds a comma), the effective search-path element
list is not pg_temp followed by that schema name followed by the old path
elements — the name is split apart by the unquoted comma interpolation. -/
theorem c3_counterexample :
    ¬ (commaSplit (setConfigValue (⟨["a,b"], []⟩ : connection_factory) ("public"))
        = "pg_temp" :: ["a,b"] ++ commaSplit ("public")) := by decide

/-- Claim C3 (amended): for every schemas list whose names hold no comma,
initialize(connection) sets the session search path to pg_temp first, then
each caller-declared extra schema in the given order, followed by the
server's pre-existing search path with none of its elements lost — the
server default is prefixed, never replaced. -/
theorem c3_search_path_prefix (cf : connection_factory) (serverPath : String)
    (h : ∀ s ∈ cf.schemas, ',' ∉ s.data) :
    commaSplit (setConfigValue cf serverPath)
      = "pg_temp" :: cf.schemas ++ commaSplit serverPath := by
  unfold commaSplit setConfigValue searchPathSchemas
  rw [String.data_append, String.data_append]
  rw [show ("," : String).data = [','] from rfl, List.append_assoc]
  rw [List.singleton_append]
  rw [commaJoin_data_split serverPath.data ("pg_temp" :: cf.schemas) (by simp)
    (by
      intro s hs
      rcases List.mem_cons.mp hs with h1 | h2
      · subst h1; decide
      · exact h s h2)]
  rw [List.map_append, List.map_map]
  rw [show String.mk ∘ String.data = id from funext string_mk_data, List.map_id]

/-- Witness for the amended C3 at a concrete comma-free configuration. -/
theorem c3_witness :
    commaSplit (setConfigValue (⟨["myschema"], []⟩ : connection_factory)
        ("\x22$user\x22,public"))
      = "pg_temp" :: ["myschema"] ++ commaSplit ("\x22$user\x22,public") :=
  c3_search_path_prefix (⟨["myschema"], []⟩ : connection_factory)
    ("\x22$user\x22,public") (by decide)

set_option maxRecDepth 4096 in
/-- Claim C10: the search-path statement is built by joining the schema
names with commas and interpolating the result unquoted, so the encoding
of the schemas list is not injective: the distinct schemas lists
[a,b] (one name holding a comma) and [a], [b] (two names) produce
character-for-character the same search-path SQL statement. -/
theorem c10_noninjective_interpolation :
    searchPathStatement (⟨["a,b"], []⟩ : connection_factory)
        = searchPathStatement (⟨["a", "b"], []⟩ : connection_factory) ∧
    (⟨["a,b"], []⟩ : connection_factory) ≠ (⟨["a", "b"], []⟩ : connection_factory) := by
  constructor
  · decide
  · decide

/-- Counterexample for C1 as stated: primary URL reachable, second
secondary URL unreachable — open() fails, but the primary pool is still
published in process-wide state and no pool was ever closed, so
process-wide state does hold an open primary pool handle afterward. -/
theorem c1_counterexample :
    (connect_to_db (fun u => !(u == "S2")) (⟨⟨none, none⟩, []⟩ : World)
        (some (⟨"P", 1, 2, 3, 4⟩ : PostgresSettings))
        (some (⟨["S1", "S2"]⟩ : MultiPostgresSettings)) none none).2 = false ∧
    (connect_to_db (fun u => !(u == "S2")) (⟨⟨none, none⟩, []⟩ : World)
        (some (⟨"P", 1, 2, 3, 4⟩ : PostgresSettings))
        (some (⟨["S1", "S2"]⟩ : MultiPostgresSettings)) none none).1.state.pool
      = some (mkPool ("P") (⟨"P", 1, 2, 3, 4⟩ : PostgresSettings)
          (connection_factory.ofOptions none none)) ∧
    (connect_to_db (fun u => !(u == "S2")) (⟨⟨none, none⟩, []⟩ : World)
        (some (⟨"P", 1, 2, 3, 4⟩ : PostgresSettings))
        (some (⟨["S1", "S2"]⟩ : MultiPostgresSettings)) none none).1.closedPools
      = [] := by decide

/-- Claim C1 (amended): for every call to open() (connect_to_db) with a
primary URL and a non-empty list of secondary URLs, if creating any
secondary pool fails, the whole open() fails, but the already-created
primary pool is NOT closed before the error is returned: it remains
published in process-wide state (app.state.pool), no pool is closed, and
the secondary pool list is not published. -/
theorem c1_secondary_failure_keeps_primary (ok : String → Bool) (w : World)
    (s : PostgresSettings) (m : MultiPostgresSettings)
    (schemas user_sql_files : Option (List String))
    (hp : ok s.database_url = true)
    (hf : ∃ u ∈ m.database_url_list, ok u = false) :
    (connect_to_db ok w (some s) (some m) schemas user_sql_files).2 = false ∧
    (connect_to_db ok w (some s) (some m) schemas user_sql_files).1.state.pool
      = some (mkPool s.database_url s
          (connection_factory.ofOptions schemas user_sql_files)) ∧
    (connect_to_db ok w (some s) (some m) schemas user_sql_files).1.closedPools
      = w.closedPools ∧
    (connect_to_db ok w (some s) (some m) schemas user_sql_files).1.state.pool_list
      = w.state.pool_list := by
  have hlen : 0 < m.database_url_list.length := by
    rcases hf with ⟨u, hu, _⟩
    exact List.length_pos_of_mem hu
  have hcp : create_pool_b ok s.database_url s
      (connection_factory.ofOptions schemas user_sql_files)
      = some (mkPool s.database_url s
          (connection_factory.ofOptions schemas user_sql_files)) := by
    simp [create_pool_b, hp]
  have hcps := createPools_none ok s
    (connection_factory.ofOptions schemas user_sql_files) m.database_url_list hf
  refine ⟨?_, ?_, ?_, ?_⟩ <;> simp [connect_to_db, hcp, hcps, hlen]

/-- Witness for the amended C1 at a concrete input: two secondary URLs,
the second unreachable. -/
theorem c1_witness :
    (connect_to_db (fun u => !(u == "S2")) (⟨⟨none, none⟩, [] ⟩ : World)
        (some (⟨"PRI", 1, 2, 3, 4⟩ : PostgresSettings))
        (some (⟨["S1", "S2"]⟩ : MultiPostgresSettings)) none none).2 = false ∧
    (connect_to_db (fun u => !(u == "S2")) (⟨⟨none, none⟩, [] ⟩ : World)
        (some (⟨"PRI", 1, 2, 3, 4⟩ : PostgresSettings))
        (some (⟨["S1", "S2"]⟩ : MultiPostgresSettings)) none none).1.state.pool
      = some (mkPool ("PRI") (⟨"PRI", 1, 2, 3, 4⟩ : PostgresSettings)
          (connection_factory.ofOptions none none)) ∧
    (connect_to_db (fun u => !(u == "S2")) (⟨⟨none, none⟩, [] ⟩ : World)
        (some (⟨"PRI", 1, 2, 3, 4⟩ : PostgresSettings))
        (some (⟨["S1", "S2"]⟩ : MultiPostgresSettings)) none none).1.closedPools
      = [] ∧
    (connect_to_db (fun u => !(u == "S2")) (⟨⟨none, none⟩, [] ⟩ : World)
        (some (⟨"PRI", 1, 2, 3, 4⟩ : PostgresSettings))
        (some (⟨["S1", "S2"]⟩ : MultiPostgresSettings)) none none).1.state.pool_list
      = none :=
  c1_secondary_failure_keeps_primary (fun u => !(u == "S2"))
    (⟨⟨none, none⟩, [] ⟩ : World) (⟨"PRI", 1, 2, 3, 4⟩ : PostgresSettings)
    (⟨["S1", "S2"]⟩ : MultiPostgresSettings) none none (by decide)
    ⟨"S2", by decide, by decide⟩

/-- Claim C6: for every non-empty list of secondary URLs (all reachable,
primary reachable), open() builds exactly one additional pool per
secondary URL, sequentially in the given order, each using the same sizing
configuration (min size, max size, max queries, max inactive lifetime) and
the same connection_factory value as the primary pool. -/
theorem c6_secondary_pools (ok : String → Bool) (w : World)
    (s : PostgresSettings) (m : MultiPostgresSettings)
    (schemas user_sql_files : Option (List String))
    (hne : m.database_url_list ≠ [])
    (hp : ok s.database_url = true)
    (hs : ∀ u ∈ m.database_url_list, ok u = true) :
    connect_to_db ok w (some s) (some m) schemas user_sql_files =
      (⟨⟨some (mkPool s.database_url s
            (connection_factory.ofOptions schemas user_sql_files)),
         some (m.database_url_list.map (fun u =>
            mkPool u s (connection_factory.ofOptions schemas user_sql_files)))⟩,
        w.closedPools⟩, true) ∧
    ∀ p ∈ m.database_url_list.map (fun u =>
        mkPool u s (connection_factory.ofOptions schemas user_sql_files)),
      p.min_size = s.db_min_conn_size ∧ p.max_size = s.db_max_conn_size ∧
      p.max_queries = s.db_max_queries ∧
      p.max_inactive_connection_lifetime = s.db_max_inactive_conn_lifetime ∧
      p.init = connection_factory.ofOptions schemas user_sql_files := by
  have hlen : 0 < m.database_url_list.length := List.length_pos.mpr hne
  have hcp : create_pool_b ok s.database_url s
      (connection_factory.ofOptions schemas user_sql_files)
      = some (mkPool s.database_url s
          (connection_factory.ofOptions schemas user_sql_files)) := by
    simp [create_pool_b, hp]
  have hcps := createPools_map ok s
    (connection_factory.ofOptions schemas user_sql_files) m.database_url_list hs
  constructor
  · simp [connect_to_db, hcp, hcps, hlen]
  · intro p hp2
    rcases List.mem_map.mp hp2 with ⟨u, hu, rfl⟩
    exact ⟨rfl, rfl, rfl, rfl, rfl⟩

/-- Witness for C6 at a concrete input: two reachable secondary URLs. -/
theorem c6_witness :
    connect_to_db (fun _ => true) (⟨⟨none, none⟩, []⟩ : World)
        (some (⟨"P", 1, 2, 3, 4⟩ : PostgresSettings))
        (some (⟨["S1", "S2"]⟩ : MultiPostgresSettings)) none none
      = (⟨⟨some (mkPool ("P") (⟨"P", 1, 2, 3, 4⟩ : PostgresSettings)
              (connection_factory.ofOptions none none)),
          some [mkPool ("S1") (⟨"P", 1, 2, 3, 4⟩ : PostgresSettings)
              (connection_factory.ofOptions none none),
            mkPool ("S2") (⟨"P", 1, 2, 3, 4⟩ : PostgresSettings)
              (connection_factory.ofOptions none none)]⟩, []⟩, true) :=
  (c6_secondary_pools (fun _ => true) (⟨⟨none, none⟩, []⟩ : World)
    (⟨"P", 1, 2, 3, 4⟩ : PostgresSettings)
    (⟨["S1", "S2"]⟩ : MultiPostgresSettings) none none (by decide) (by decide)
    (by decide)).1

/-- Claim C7: close() (close_db_connection) closes exactly the primary
pool handle and changes nothing else: the application state (including the
secondary pool list) is left untouched, only the primary pool is added to
the closed set, and no pool of the secondary list becomes closed. -/
theorem c7_close_primary_only (w : World) (p : Pool)
    (h : w.state.pool = some p) :
    close_db_connection w = some ⟨w.state, w.closedPools ++ [p]⟩ ∧
    ∀ q ∈ w.state.pool_list.getD [], q ≠ p → q ∉ w.closedPools →
      q ∉ w.closedPools ++ [p] := by
  constructor
  · simp [close_db_connection, h]
  · intro q _ hqp hqc hqin
    rcases List.mem_append.mp hqin with h1 | h2
    · exact hqc h1
    · exact hqp (List.mem_singleton.mp h2)

/-- Witness for C7 at a concrete world holding a primary pool and one
secondary pool: the secondary list survives and only the primary is
closed. -/
theorem c7_witness :
    close_db_connection
        (⟨⟨some (⟨"P", 1, 2, 3, 4, ⟨[], []⟩⟩ : Pool),
           some [(⟨"S", 1, 2, 3, 4, ⟨[], []⟩⟩ : Pool)]⟩, []⟩ : World)
      = some ⟨⟨some (⟨"P", 1, 2, 3, 4, ⟨[], []⟩⟩ : Pool),
           some [(⟨"S", 1, 2, 3, 4, ⟨[], []⟩⟩ : Pool)]⟩,
          [(⟨"P", 1, 2, 3, 4, ⟨[], []⟩⟩ : Pool)]⟩ :=
  (c7_close_primary_only
    (⟨⟨some (⟨"P", 1, 2, 3, 4, ⟨[], []⟩⟩ : Pool),
       some [(⟨"S", 1, 2, 3, 4, ⟨[], []⟩⟩ : Pool)]⟩, []⟩ : World)
    (⟨"P", 1, 2, 3, 4, ⟨[], []⟩⟩ : Pool) rfl).1

/-- Claim C9: when connect_to_db is called without multi-database settings
(none, or an empty URL list), the process-wide secondary pool list
(app.state.pool_list) is neither set, cleared, nor closed — a value
published by a previous open() survives unchanged — whereas the primary
pool handle (app.state.pool) is overwritten whenever primary pool creation
succeeds. -/
theorem c9_pool_list_untouched (ok : String → Bool) (w : World)
    (settings : Option PostgresSettings)
    (multi : Option MultiPostgresSettings)
    (schemas user_sql_files : Option (List String))
    (hm : multi = none ∨ multi = some (⟨[]⟩ : MultiPostgresSettings)) :
    (connect_to_db ok w settings multi schemas user_sql_files).1.state.pool_list
        = w.state.pool_list ∧
    (connect_to_db ok w settings multi schemas user_sql_files).1.closedPools
        = w.closedPools ∧
    (ok (settings.getD defaultPostgresSettings).database_url = true →
      (connect_to_db ok w settings multi schemas user_sql_files).1.state.pool
          = some (mkPool (settings.getD defaultPostgresSettings).database_url
              (settings.getD defaultPostgresSettings)
              (connection_factory.ofOptions schemas user_sql_files)) ∧
      (connect_to_db ok w settings multi schemas user_sql_files).2 = true) := by
  by_cases hp : ok (settings.getD defaultPostgresSettings).database_url = true
  · have hcp : create_pool_b ok (settings.getD defaultPostgresSettings).database_url
        (settings.getD defaultPostgresSettings)
        (connection_factory.ofOptions schemas user_sql_files)
        = some (mkPool (settings.getD defaultPostgresSettings).database_url
            (settings.getD defaultPostgresSettings)
            (connection_factory.ofOptions schemas user_sql_files)) := by
      simp [create_pool_b, hp]
    rcases hm with rfl | rfl
    · simp [connect_to_db, hcp]
    · simp [connect_to_db, hcp]
  · have hcp : create_pool_b ok (settings.getD defaultPostgresSettings).database_url
        (settings.getD defaultPostgresSettings)
        (connection_factory.ofOptions schemas user_sql_files) = none := by
      simp [create_pool_b, hp]
    rcases hm with rfl | rfl
    · simp [connect_to_db, hcp, hp]
    · simp [connect_to_db, hcp, hp]

/-- Witness for C9 at a concrete input: a previously published secondary
pool list survives a multi-less connect_to_db call, and the primary pool
handle is overwritten. -/
theorem c9_witness :
    (connect_to_db (fun _ => true)
        (⟨⟨none, some [(⟨"OLD", 1, 1, 1, 1, ⟨[], []⟩⟩ : Pool)]⟩, []⟩ : World)
        (some (⟨"P", 1, 2, 3, 4⟩ : PostgresSettings)) none none none).1.state.pool_list
      = some [(⟨"OLD", 1, 1, 1, 1, ⟨[], []⟩⟩ : Pool)] ∧
    (connect_to_db (fun _ => true)
        (⟨⟨none, some [(⟨"OLD", 1, 1, 1, 1, ⟨[], []⟩⟩ : Pool)]⟩, []⟩ : World)
        (some (⟨"P", 1, 2, 3, 4⟩ : PostgresSettings)) none none none).1.state.pool
      = some (mkPool ("P") (⟨"P", 1, 2, 3, 4⟩ : PostgresSettings)
          (connection_factory.ofOptions none none)) ∧
    (connect_to_db (fun _ => true)
        (⟨⟨none, some [(⟨"OLD", 1, 1, 1, 1, ⟨[], []⟩⟩ : Pool)]⟩, []⟩ : World)
        (some (⟨"P", 1, 2, 3, 4⟩ : PostgresSettings)) none none none).2 = true := by
  have h := c9_pool_list_untouched (fun _ => true)
    (⟨⟨none, some [(⟨"OLD", 1, 1, 1, 1, ⟨[], []⟩⟩ : Pool)]⟩, []⟩ : World)
    (some (⟨"P", 1, 2, 3, 4⟩ : PostgresSettings)) none none none (Or.inl rfl)
  exact ⟨h.1, (h.2.2 (by decide)).1, (h.2.2 (by decide)).2⟩
